import Mathlib

/-!
Verification of the orchestration / invocation layer of the Multi-LLM
Assistant (a TypeScript Next.js application).  The TypeScript sources are
shallowly embedded below: pure functions become Lean functions, the React
page state becomes an explicit state record, and the two external effectful
primitives — the OpenRouter HTTP provider and the platform JSON parser
(`JSON.parse`) — are abstracted as function parameters (`provider`, `jp`),
since their behaviour is outside the repository.  JavaScript string
operations (`trim`, `split`, `join`, `indexOf`, `slice`, `toLowerCase`,
`includes`, `parseInt`, `Array.from(new Set(...))`) are embedded by
`js`-prefixed helpers with the corresponding ECMAScript semantics on
`List Char` data.
-/

/-! ## JavaScript string primitives -/

/-- The ECMAScript WhiteSpace / LineTerminator set used by `String.prototype.trim`. -/
def isJsWhitespace (c : Char) : Bool :=
  c = ' ' || c = '\t' || c = '\n' || c.val = 11 || c.val = 12 || c = '\r' ||
  c.val = 0xa0 || c.val = 0x1680 || (0x2000 ≤ c.val && c.val ≤ 0x200a) ||
  c.val = 0x2028 || c.val = 0x2029 || c.val = 0x202f || c.val = 0x205f ||
  c.val = 0x3000 || c.val = 0xfeff

/-- `String.prototype.trim`. -/
def jsTrim (s : String) : String :=
  ⟨((s.data.dropWhile isJsWhitespace).reverse.dropWhile isJsWhitespace).reverse⟩

/-- `Array.prototype.join(sep)` for string arrays. -/
def jsJoin (sep : String) : List String → String
  | [] => ""
  | [x] => x
  | x :: y :: rest => x ++ sep ++ jsJoin sep (y :: rest)

/-- `String.prototype.split(sep)` for a one-character separator, on character data. -/
def splitOnChar (sep : Char) : List Char → List (List Char)
  | [] => [[]]
  | c :: rest =>
    let r := splitOnChar sep rest
    if c = sep then [] :: r
    else
      match r with
      | h :: t => (c :: h) :: t
      | [] => [[c]]

/-- `String.prototype.split(sep)` (one-character separator) on strings. -/
def jsSplit (sep : Char) (s : String) : List String :=
  (splitOnChar sep s.data).map (fun cs => ⟨cs⟩)

/-- `Array.from(new Set(list))`: deduplicate keeping first occurrences, in order. -/
def jsSetDedupGo : List String → List String → List String
  | [], _ => []
  | x :: xs, seen => if seen.contains x then jsSetDedupGo xs seen else x :: jsSetDedupGo xs (x :: seen)

/-- `Array.from(new Set(list))`, entry point. -/
def jsSetDedup (l : List String) : List String := jsSetDedupGo l []

/-- `String.prototype.toLowerCase` (ASCII case mapping; the scanned phrases are ASCII). -/
def jsToLower (s : String) : String := ⟨s.data.map Char.toLower⟩

/-- Boolean prefix test on character lists. -/
def listIsPrefixB : List Char → List Char → Bool
  | [], _ => true
  | _ :: _, [] => false
  | a :: as, b :: bs => a = b && listIsPrefixB as bs

/-- Boolean contiguous-substring test on character lists (`String.prototype.includes`). -/
def listIsInfixB (needle : List Char) : List Char → Bool
  | [] => needle.isEmpty
  | c :: rest => listIsPrefixB needle (c :: rest) || listIsInfixB needle rest

/-- `String.prototype.includes`. -/
def jsIncludes (hay needle : String) : Bool := listIsInfixB needle.data hay.data

/-- First index of a character (`String.prototype.indexOf` restricted to one char). -/
def charIndexOf (cs : List Char) (c : Char) : Option Nat :=
  match cs with
  | [] => none
  | x :: rest => if x = c then some 0 else (charIndexOf rest c).map (· + 1)

/-- Last index of a character (`String.prototype.lastIndexOf` restricted to one char). -/
def charLastIndexOf (cs : List Char) (c : Char) : Option Nat :=
  (charIndexOf cs.reverse c).map (fun i => cs.length - 1 - i)

/-- `String.prototype.slice(a, b)` with non-negative indices. -/
def jsSlice (s : String) (a b : Nat) : String := ⟨(s.data.drop a).take (b - a)⟩

/-- Numeric value of a run of decimal digit characters. -/
def natFromDigits (ds : List Char) : Nat :=
  ds.foldl (fun acc c => acc * 10 + (c.toNat - 48)) 0

/-- `Number.parseInt(s, 10)`: optional sign, then a leading decimal-digit run;
`none` models the `NaN` result. -/
def jsParseInt (s : String) : Option Int :=
  let cs := s.data.dropWhile isJsWhitespace
  let signAndRest : Int × List Char :=
    match cs with
    | '-' :: t => (-1, t)
    | '+' :: t => (1, t)
    | _ => (1, cs)
  let ds := signAndRest.2.takeWhile Char.isDigit
  if ds.isEmpty then none else some (signAndRest.1 * (natFromDigits ds : Int))

/-- `Math.floor` on the rational model of a JS number. -/
def ratFloorJs (q : ℚ) : Int := q.num.fdiv q.den

/-- The character `\x7b` (left curly brace). -/
def braceOpen : Char := Char.ofNat 123

/-- The character `\x7d` (right curly brace). -/
def braceClose : Char := Char.ofNat 125

/-- `full` contains `name` as a contiguous substring (used to state that an
error message names a model). -/
def mentions (full name : String) : Prop :=
  ∃ pre post, full.data = pre ++ name.data ++ post

/-! ## Shared types (`src/lib/llm/types.ts`) -/

/-- The fixed role enumeration `LLM_ROLES`. -/
inductive LlmRole where
  | refiner
  | debater_a
  | debater_b
  | debater_c
  | summarizer
deriving DecidableEq, Repr

/-- `RoleModelMap`: a partial record from roles to model identifiers. -/
def RoleModelMap := LlmRole → Option String

/-! ## Model configuration (`src/lib/llm/model-config.ts`) -/

/-- `BASE_AVAILABLE_MODELS`. -/
def BASE_AVAILABLE_MODELS : List String :=
  ["openai/gpt-oss-120b:free",
   "qwen/qwen3-next-80b-a3b-instruct:free",
   "google/gemma-3-27b-it:free",
   "meta-llama/llama-3.3-70b-instruct:free",
   "deepseek/deepseek-r1-0528:free",
   "deepseek/deepseek-v3.2"]

/-- The environment variables read by the configuration layer, plus the
per-role token variables `OPENROUTER_MAX_TOKENS_<ROLE>`. -/
structure Env where
  openrouterModels : Option String
  openrouterExtraModels : Option String
  openrouterMaxTokensCap : Option String
  roleMaxTokens : LlmRole → Option String

/-- An environment with no variable set. -/
def emptyEnv : Env :=
  { openrouterModels := none
    openrouterExtraModels := none
    openrouterMaxTokensCap := none
    roleMaxTokens := fun _ => none }

/-- `parseModelList(raw?)`: split a comma-separated list, trim entries, drop empties. -/
def parseModelList (raw : Option String) : List String :=
  match raw with
  | none => []
  | some s =>
    if s.isEmpty then []
    else ((jsSplit ',' s).map jsTrim).filter (fun item => item.length > 0)

/-- `getAvailableModels()`. -/
def getAvailableModels (env : Env) : List String :=
  let customModels := parseModelList (env.openrouterModels.map jsTrim)
  let extraModels := parseModelList (env.openrouterExtraModels.map jsTrim)
  let seed := if customModels.length > 0 then customModels else BASE_AVAILABLE_MODELS
  jsSetDedup (seed ++ extraModels)

/-- `DEFAULT_ROLE_MODEL_MAP`. -/
def DEFAULT_ROLE_MODEL_MAP : LlmRole → String
  | .refiner => "qwen/qwen3-next-80b-a3b-instruct:free"
  | .debater_a => "openai/gpt-oss-120b:free"
  | .debater_b => "google/gemma-3-27b-it:free"
  | .debater_c => "meta-llama/llama-3.3-70b-instruct:free"
  | .summarizer => "deepseek/deepseek-v3.2"

/-- Character class `[a-z0-9._-]` under the `/i` flag. -/
def isVendorChar (c : Char) : Bool :=
  c.isAlpha || c.isDigit || c = '.' || c = '_' || c = '-'

/-- Character class `[a-z0-9._:-]` under the `/i` flag. -/
def isModelNameChar (c : Char) : Bool :=
  isVendorChar c || c = ':'

/-- The allow regex `/^[a-z0-9._-]+\/[a-z0-9._:-]+$/i`: since neither class
contains `/`, a match is exactly one `/` separating two non-empty class runs. -/
def matchesModelPattern (s : String) : Bool :=
  match jsSplit '/' s with
  | [vendor, name] =>
    !vendor.isEmpty && !name.isEmpty &&
    vendor.data.all isVendorChar && name.data.all isModelNameChar
  | _ => false

/-- `isAllowedModel(model)`. -/
def isAllowedModel (env : Env) (model : String) : Bool :=
  let normalized := jsTrim model
  if normalized.isEmpty then false
  else if (getAvailableModels env).contains normalized then true
  else matchesModelPattern normalized

/-- `supportsSystemPrompt(model)`. -/
def supportsSystemPrompt (model : String) : Bool :=
  !(listIsPrefixB "google/gemma".data (jsTrim model).data)

/-- The configuration error message thrown when no model is available. -/
def noModelsMessage : String :=
  "No available models configured. Please set OPENROUTER_MODELS in .env.local."

/-- `resolveModelForRole(role, roleModelMap?)`; the `throw` is modelled as
`Except.error` carrying the thrown message. -/
def resolveModelForRole (env : Env) (role : LlmRole) (roleModelMap : RoleModelMap) :
    Except String String :=
  let fromRequest := (roleModelMap role).map jsTrim
  let requestHit : Option String :=
    match fromRequest with
    | some t => if !t.isEmpty && isAllowedModel env t then some t else none
    | none => none
  match requestHit with
  | some m => .ok m
  | none =>
    let fromDefaults := DEFAULT_ROLE_MODEL_MAP role
    if isAllowedModel env fromDefaults then .ok fromDefaults
    else
      match (getAvailableModels env).head? with
      | some m => if m.isEmpty then .error noModelsMessage else .ok m
      | none => .error noModelsMessage

/-! ## Invocation service (`src/lib/llm/service.ts`) -/

/-- `defaultRoleMaxTokens`. -/
def defaultRoleMaxTokens : LlmRole → Nat
  | .refiner => 500
  | .debater_a => 800
  | .debater_b => 800
  | .debater_c => 800
  | .summarizer => 900

/-- `parsePositiveInt(raw?)`. -/
def parsePositiveInt (raw : Option String) : Option Nat :=
  match raw with
  | none => none
  | some s =>
    if s.isEmpty then none
    else
      match jsParseInt (jsTrim s) with
      | none => none
      | some v => if v ≤ 0 then none else some v.toNat

/-- The effective hard cap `parsePositiveInt(process.env.OPENROUTER_MAX_TOKENS_CAP) ?? 4096`. -/
def hardCapOf (env : Env) : Nat :=
  (parsePositiveInt env.openrouterMaxTokensCap).getD 4096

/-- `resolveMaxTokens(role, override?)`.  The JS `number` override is modelled
as a rational (`typeof override === "number" && Number.isFinite(override)`
holds of every rational; `Math.floor` is `ratFloorJs`). -/
def resolveMaxTokens (env : Env) (role : LlmRole) (override : Option ℚ) : Int :=
  let hardCap : Int := (hardCapOf env : Int)
  let fromEnv := parsePositiveInt (env.roleMaxTokens role)
  let fromOverride : Option Int :=
    match override with
    | some q => if 0 < q then some (ratFloorJs q) else none
    | none => none
  let baseValue : Int :=
    match fromOverride with
    | some v => v
    | none =>
      match fromEnv with
      | some n => (n : Int)
      | none => (defaultRoleMaxTokens role : Int)
  min baseValue hardCap

/-- The caller-facing input of `runRole` (fields that drive model selection
and fallback; prompt/temperature fields are irrelevant to the modelled
control flow and omitted). -/
structure RunRoleInput where
  role : LlmRole
  model : Option String
  roleModelMap : RoleModelMap
  allowFallback : Option Bool
  maxTokens : Option ℚ

/-- `input.model?.trim()` seen through JS truthiness: `none` when the field is
absent or trims to the empty string, otherwise the trimmed model. -/
def pinnedModel (input : RunRoleInput) : Option String :=
  match input.model with
  | none => none
  | some s => let t := jsTrim s; if t.isEmpty then none else some t

/-- `const model = explicitModel || resolveModelForRole(input.role, input.roleModelMap)`. -/
def runRoleSelectedModel (env : Env) (input : RunRoleInput) : Except String String :=
  match pinnedModel input with
  | some m => .ok m
  | none => resolveModelForRole env input.role input.roleModelMap

/-- `const allowFallback = input.allowFallback ?? !explicitModel`. -/
def runRoleAllowFallback (input : RunRoleInput) : Bool :=
  input.allowFallback.getD (pinnedModel input).isNone

/-- `getFallbackModels(primaryModel)`. -/
def getFallbackModels (env : Env) (primaryModel : String) : List String :=
  (getAvailableModels env).filter (fun model => model ≠ primaryModel)

/-- Outcome of one `provider.chatCompletion` call: a successful response
(content and the model reported by the backend), a thrown
`OpenRouterHttpError` (status and raw body), or any other thrown error. -/
inductive ProviderOutcome where
  | success (content : String) (respModel : String)
  | httpFailure (status : Nat) (body : String)
  | otherFailure (message : String)
deriving DecidableEq, Repr

/-- Result of `runRole`: the returned response, a propagated
`OpenRouterHttpError` (status, body, message), a propagated non-HTTP error,
or the configuration error thrown by `resolveModelForRole`. -/
inductive RunRoleOutcome where
  | ok (content : String) (respModel : String)
  | httpThrown (status : Nat) (body : String) (message : String)
  | otherThrown (message : String)
  | configError (message : String)
deriving DecidableEq, Repr

/-- One observable step of `runRole`: a provider call or a `sleep(ms)`. -/
inductive CallEvent where
  | call (model : String)
  | wait (ms : Nat)
deriving DecidableEq, Repr

/-- The models called in an event trace. -/
def calledModels (events : List CallEvent) : List String :=
  events.filterMap (fun e => match e with | .call m => some m | .wait _ => none)

/-- The default `OpenRouterHttpError` message
`OpenRouter request failed (<status>): <body.slice(0, 400)>`. -/
def defaultHttpMessage (status : Nat) (body : String) : String :=
  "OpenRouter request failed (" ++ toString status ++ "): " ++ (⟨body.data.take 400⟩ : String)

/-- The aggregated rate-limit message naming every attempted model. -/
def aggregatedMessage (attempted : List String) : String :=
  "OpenRouter free models are currently rate-limited. Tried: " ++
  jsJoin ", " attempted ++
  ". Please retry shortly or use BYOK (your own provider key)."

/-- The fallback loop of `runRole` over the remaining pool, with the
`attemptedModels` accumulator (the primary error body is `primaryBody`).
Returns the outcome and the events of the loop (`sleep(200)` before each
retry). -/
def fallbackLoop (provider : String → ProviderOutcome) (primaryBody : String)
    (attempted : List String) : List String → RunRoleOutcome × List CallEvent
  | [] => (.httpThrown 429 primaryBody (aggregatedMessage attempted), [])
  | fallbackModel :: rest =>
    let attemptedNow := attempted ++ [fallbackModel]
    match provider fallbackModel with
    | .success c m => (.ok c m, [.wait 200, .call fallbackModel])
    | .otherFailure msg => (.otherThrown msg, [.wait 200, .call fallbackModel])
    | .httpFailure st b =>
      if st = 429 then
        let r := fallbackLoop provider primaryBody attemptedNow rest
        (r.1, [CallEvent.wait 200, CallEvent.call fallbackModel] ++ r.2)
      else (.httpThrown st b (defaultHttpMessage st b), [.wait 200, .call fallbackModel])

/-- `runRole`: select the model, attempt it, and on a 429 `OpenRouterHttpError`
with fallback allowed, retry serially across `getFallbackModels`.  The provider
is abstracted as a function from the called model to its outcome (each model is
called at most once per invocation). -/
def runRole (env : Env) (provider : String → ProviderOutcome) (input : RunRoleInput) :
    RunRoleOutcome × List CallEvent :=
  match runRoleSelectedModel env input with
  | .error msg => (.configError msg, [])
  | .ok model =>
    match provider model with
    | .success c m => (.ok c m, [.call model])
    | .otherFailure msg => (.otherThrown msg, [.call model])
    | .httpFailure st body =>
      if st = 429 && runRoleAllowFallback input then
        let r := fallbackLoop provider body [model] (getFallbackModels env model)
        (r.1, CallEvent.call model :: r.2)
      else (.httpThrown st body (defaultHttpMessage st body), [.call model])

/-! ## Structured output parser (`src/app/debate/page.tsx`, parsing helpers) -/

/-- JSON values, the possible results of `JSON.parse` (an object is its
final property list; `JSON.parse` never yields duplicate keys). -/
inductive JsValue where
  | jnull
  | jbool (b : Bool)
  | jnum (n : Int)
  | jstr (s : String)
  | jarr (items : List JsValue)
  | jobj (fields : List (String × JsValue))

/-- JS property access `obj[key]` on a parsed JSON object. -/
def findProp (fields : List (String × JsValue)) (key : String) : Option JsValue :=
  (fields.find? (fun f => f.1 = key)).map (fun f => f.2)

/-- The platform JSON parser `JSON.parse` is abstracted as a function
`jp : String → Option JsValue`; `none` models a thrown `SyntaxError`. -/
def JsonParseFn := String → Option JsValue

/-- The guarded parse `parsed && typeof parsed === "object" && !Array.isArray(parsed)`:
keep only a (non-null, non-array) object result. -/
def objParse (jp : JsonParseFn) (s : String) : Option (List (String × JsValue)) :=
  match jp s with
  | some (.jobj fields) => some fields
  | _ => none

/-- The recovery substring of `parseJsonObject`: from the first `\x7b` to the
last `\x7d` (inclusive), when the first strictly precedes the last. -/
def braceSlice (trimmed : String) : Option String :=
  match charIndexOf trimmed.data braceOpen, charLastIndexOf trimmed.data braceClose with
  | some firstBrace, some lastBrace =>
    if firstBrace < lastBrace then some (jsSlice trimmed firstBrace (lastBrace + 1))
    else none
  | _, _ => none

/-- `parseJsonObject(raw)`. -/
def parseJsonObject (jp : JsonParseFn) (raw : String) : Option (List (String × JsValue)) :=
  let trimmed := jsTrim raw
  if trimmed.isEmpty then none
  else
    match objParse jp trimmed with
    | some fields => some fields
    | none =>
      match braceSlice trimmed with
      | some sub => objParse jp sub
      | none => none

/-- One step of `readContentsArray`: the `contents` field of an array element,
trimmed, or `""` for a malformed element. -/
def readContentsItem (item : JsValue) : String :=
  match item with
  | .jobj fields =>
    match findProp fields "contents" with
    | some (.jstr s) => jsTrim s
    | _ => ""
  | _ => ""

/-- `readContentsArray(value)`. -/
def readContentsArray (value : Option JsValue) : List String :=
  match value with
  | some (.jarr items) => (items.map readContentsItem).filter (fun item => item.length > 0)
  | _ => []

/-- `DebaterParsedOutput`. -/
structure DebaterParsedOutput where
  speaker : String
  newPerspectives : List String
  counterpoints : List String
deriving DecidableEq, Repr

/-- The `speaker` field logic of `parseDebaterOutput`. -/
def speakerOf (fields : List (String × JsValue)) (fallbackSpeaker : String) : String :=
  match findProp fields "speaker" with
  | some (.jstr s) => if (jsTrim s).isEmpty then fallbackSpeaker else jsTrim s
  | _ => fallbackSpeaker

/-- `parseDebaterOutput(raw, fallbackSpeaker)`. -/
def parseDebaterOutput (jp : JsonParseFn) (raw : String) (fallbackSpeaker : String) :
    Option DebaterParsedOutput :=
  match parseJsonObject jp raw with
  | none => none
  | some parsed =>
    let speaker := speakerOf parsed fallbackSpeaker
    let newPerspectives := readContentsArray (findProp parsed "new_perspectives")
    let counterpoints := readContentsArray (findProp parsed "counterpoints")
    if newPerspectives.isEmpty && counterpoints.isEmpty then none
    else some ⟨speaker, newPerspectives, counterpoints⟩

/-! ## Debate round orchestrator (`src/app/debate/page.tsx`) -/

/-- `DebaterRole`. -/
inductive DebaterRole where
  | debater_a
  | debater_b
  | debater_c
deriving DecidableEq, Repr

/-- `DEBATER_ROLES`, the fixed participant order. -/
def DEBATER_ROLES : List DebaterRole := [.debater_a, .debater_b, .debater_c]

/-- `DEBATER_ROLES.indexOf(role)`. -/
def debaterIndex : DebaterRole → Nat
  | .debater_a => 0
  | .debater_b => 1
  | .debater_c => 2

/-- `UiLang`. -/
inductive UiLang where
  | zh
  | en
deriving DecidableEq, Repr

/-- `tr(zhText, enText)`. -/
def tr (lang : UiLang) (zhText enText : String) : String :=
  match lang with
  | .zh => zhText
  | .en => enText

/-- `INTERNAL_ROLE_LABELS`. -/
def INTERNAL_ROLE_LABELS : DebaterRole → String
  | .debater_a => "模型1"
  | .debater_b => "模型2"
  | .debater_c => "模型3"

/-- `ROLE_SPEAKERS_BY_LANG[lang][role]`. -/
def roleSpeakers (lang : UiLang) : DebaterRole → String
  | .debater_a => tr lang "1号辩手" "Debater 1"
  | .debater_b => tr lang "2号辩手" "Debater 2"
  | .debater_c => tr lang "3号辩手" "Debater 3"

/-- `DebaterResult`. -/
structure DebaterResult where
  model : String
  rawContent : String
  parsed : Option DebaterParsedOutput
  error : Option String
deriving DecidableEq, Repr

/-- `RoundResults`, the partial record over the three fixed participants. -/
structure RoundResults where
  debater_a : Option DebaterResult
  debater_b : Option DebaterResult
  debater_c : Option DebaterResult
deriving DecidableEq, Repr

/-- Slot lookup `results[role]`. -/
def RoundResults.get (results : RoundResults) : DebaterRole → Option DebaterResult
  | .debater_a => results.debater_a
  | .debater_b => results.debater_b
  | .debater_c => results.debater_c

/-- Slot write `results[role] = result`. -/
def RoundResults.set (results : RoundResults) (role : DebaterRole) (result : DebaterResult) :
    RoundResults :=
  match role with
  | .debater_a => { results with debater_a := some result }
  | .debater_b => { results with debater_b := some result }
  | .debater_c => { results with debater_c := some result }

/-- The empty results record `{}`. -/
def emptyRoundResults : RoundResults := ⟨none, none, none⟩

/-- `hasRoundCompleted(results)`. -/
def hasRoundCompleted (results : RoundResults) : Bool :=
  DEBATER_ROLES.all (fun role => (results.get role).isSome)

/-- `normalizeOptionalText(raw?)`. -/
def normalizeOptionalText (raw : Option String) : Option String :=
  match raw with
  | none => none
  | some s =>
    if s.isEmpty then none
    else
      let normalized := jsTrim s
      if normalized.length > 0 then some normalized else none

/-- `extractParsedLines(result)`. -/
def extractParsedLines (result : DebaterResult) : List String :=
  match result.parsed with
  | none => []
  | some parsed =>
    parsed.newPerspectives.enum.map
      (fun item => "- 新视角" ++ toString (item.1 + 1) ++ ": " ++ item.2) ++
    parsed.counterpoints.enum.map
      (fun item => "- 反驳" ++ toString (item.1 + 1) ++ ": " ++ item.2)

/-- JS truthiness of `result.error` (a present non-empty error string). -/
def hasTruthyError (result : DebaterResult) : Bool :=
  match result.error with
  | some e => !e.isEmpty
  | none => false

/-- The loop body shared by both loops of `buildDebateContext`: the rendered
section for one slot, or `none` when the slot is skipped (`continue`). -/
def contextSectionFor (roundLabel : String) (entry : Option DebaterResult) : Option String :=
  match entry with
  | none => none
  | some result =>
    if hasTruthyError result then none
    else
      match result.parsed with
      | none => none
      | some parsed =>
        let lines := extractParsedLines result
        if lines.isEmpty then none
        else some (roundLabel ++ parsed.speaker ++ "\n" ++ jsJoin "\n" lines)

/-- `buildDebateContext(currentRole, currentRound, round1Results, currentRoundResults)`. -/
def buildDebateContext (currentRole : DebaterRole) (currentRound : Nat)
    (round1Results currentRoundResults : RoundResults) : String :=
  let round1Sections :=
    if currentRound = 2 then
      DEBATER_ROLES.filterMap (fun role => contextSectionFor "第一轮 " (round1Results.get role))
    else []
  let previousRoles := DEBATER_ROLES.take (debaterIndex currentRole)
  let currentSections :=
    previousRoles.filterMap
      (fun role =>
        contextSectionFor ("第" ++ toString currentRound ++ "轮 ") (currentRoundResults.get role))
  jsJoin "\n\n" (round1Sections ++ currentSections)

/-- `buildPromptForRole(basePrompt, role, currentRound, round1Results, currentRoundResults, addendum?)`. -/
def buildPromptForRole (basePrompt : String) (role : DebaterRole) (currentRound : Nat)
    (round1Results currentRoundResults : RoundResults) (addendum : Option String) : String :=
  let normalizedAddendum := if currentRound = 2 then normalizeOptionalText addendum else none
  let context := buildDebateContext role currentRound round1Results currentRoundResults
  let addendumSection :=
    match normalizedAddendum with
    | some a =>
      "以下是第一轮后用户补充信息（独立输入）：\n[User Addendum After Round 1 / 第一轮后用户补充信息]\n"
        ++ a ++ "\n"
    | none => ""
  let contextSection :=
    if context.isEmpty then "" else "以下是你可用的前序有效观点：\n" ++ context ++ "\n"
  if addendumSection.isEmpty && contextSection.isEmpty then
    basePrompt ++ "\n\n当前是第" ++ toString currentRound ++
      "轮讨论，请保持输出简短易懂。语言要求：根据用户输入与聊天记录的主要语言作答，用户用英文则输出英文，用户用中文则输出中文。"
  else
    basePrompt ++ "\n\n当前是第" ++ toString currentRound ++ "轮讨论。\n" ++
      addendumSection ++ contextSection ++
      "\n\n请基于以上内容提出你的新视角与反驳，保持既定 JSON 结构并且不要输出额外文本。"

/-- The token/context-overflow phrasing scan of `withContextOverflowHint`. -/
def mayBeOverflow (message : String) : Bool :=
  let normalized := jsToLower message
  jsIncludes normalized "context length" ||
  jsIncludes normalized "maximum context" ||
  jsIncludes normalized "max context" ||
  jsIncludes normalized "max tokens" ||
  jsIncludes normalized "token limit" ||
  jsIncludes normalized "prompt is too long" ||
  jsIncludes normalized "too many tokens"

/-- `withContextOverflowHint(message, language)`. -/
def withContextOverflowHint (message : String) (language : UiLang) : String :=
  if !mayBeOverflow message then message
  else
    match language with
    | .en => "Context is too long. Reduce rounds or shorten input, then retry.\n\nOriginal error: " ++ message
    | .zh => "上下文过长，请减少轮次或缩短输入后重试。\n\n原始错误：" ++ message

/-- Outcome of one `runSingleDebater` call (a `fetch` of `/api/llm/test`):
a success payload `data.data` (model, content), a thrown `Error` with its
message, or a thrown non-`Error` value. -/
inductive ApiOutcome where
  | success (respModel : String) (content : String)
  | failure (errorMessage : String)
  | failureNonError
deriving DecidableEq, Repr

/-- The `DebaterResult` recorded for one participant of `runDebateRound`,
given the outcome of its `runSingleDebater` call (the `try`/`catch` body of
the loop). -/
def debaterStepResult (jp : JsonParseFn) (lang : UiLang) (role : DebaterRole) (model : String)
    (outcome : ApiOutcome) : DebaterResult :=
  match outcome with
  | .success respModel content =>
    { model := respModel
      rawContent := jsTrim content
      parsed := parseDebaterOutput jp (jsTrim content) (roleSpeakers lang role)
      error := none }
  | .failure msg =>
    { model := model, rawContent := "", parsed := none
      error := some (withContextOverflowHint msg lang) }
  | .failureNonError =>
    { model := model, rawContent := "", parsed := none
      error := some (tr lang "调用失败" "Request failed") }

/-- `runDebateRound(round, prompt, addendum?)`: serial loop over
`DEBATER_ROLES`; each call's outcome is given by the abstract transport
`call role model chainedPrompt` (the round-fixed system instruction adds
no information beyond the role and round and is not part of the key). -/
def runDebateRound (jp : JsonParseFn) (call : DebaterRole → String → String → ApiOutcome)
    (lang : UiLang) (models : DebaterRole → String) (round : Nat) (prompt : String)
    (addendum : Option String) (round1Results : RoundResults) : RoundResults :=
  let stableRound1Results := if round = 2 then round1Results else emptyRoundResults
  DEBATER_ROLES.foldl
    (fun currentResults role =>
      let model := models role
      let chainedPrompt :=
        buildPromptForRole prompt role round stableRound1Results currentResults addendum
      currentResults.set role
        (debaterStepResult jp lang role model (call role model chainedPrompt)))
    emptyRoundResults

/-- The per-participant chunk of `buildSummaryBlock`. -/
def summaryChunkFor (role : DebaterRole) (entry : Option DebaterResult) : String :=
  let roleName := INTERNAL_ROLE_LABELS role
  match entry with
  | none => roleName ++ ": 无输出"
  | some result =>
    if hasTruthyError result then roleName ++ ": 调用失败 -> " ++ result.error.getD ""
    else
      match result.parsed with
      | some parsed =>
        let lines := extractParsedLines result
        if !lines.isEmpty then parsed.speaker ++ "\n" ++ jsJoin "\n" lines
        else parsed.speaker ++ ": 无有效 contents"
      | none =>
        roleName ++ ": " ++ (if result.rawContent.isEmpty then "无输出" else result.rawContent)

/-- `buildSummaryBlock(roundLabel, results)`. -/
def buildSummaryBlock (roundLabel : String) (results : RoundResults) : String :=
  roundLabel ++ "\n" ++
    jsJoin "\n\n" (DEBATER_ROLES.map (fun role => summaryChunkFor role (results.get role)))

/-- `buildSummaryPrompt(finalPrompt, round1Results, round2Results?, addendum?)`. -/
def buildSummaryPrompt (finalPrompt : String) (round1Results : RoundResults)
    (round2Results : Option RoundResults) (addendum : Option String) : String :=
  let normalizedAddendum := normalizeOptionalText addendum
  let blocks :=
    [buildSummaryBlock "第一轮讨论结果" round1Results] ++
      (match round2Results with
       | some r2 => [buildSummaryBlock "第二轮讨论结果" r2]
       | none => [])
  let addendumSection :=
    match normalizedAddendum with
    | some a => "第一轮后用户补充信息 / User Addendum After Round 1:\n" ++ a ++ "\n\n"
    | none => ""
  "用户正式问题：\n" ++ finalPrompt ++ "\n\n" ++ addendumSection ++
    "请根据以下辩论结果生成总结（简短、清晰、可执行）：\n" ++ jsJoin "\n\n" blocks ++
    "\n\n输出要求：\n1) 严格输出 JSON，遵循你既定的输出 schema（new_perspectives/counterpoints）。\n2) 先给最终建议，再给推荐做法与不推荐做法。\n3) 推荐做法可为 1 条或多条，不强制 3-5 条。\n4) 语言要求：根据用户输入与聊天记录的主要语言输出，用户用英文则输出英文，用户用中文则输出中文。"

/-- `SummaryMode`. -/
inductive SummaryMode where
  | hidden
  | round1
  | round2
deriving DecidableEq, Repr

/-- The debate page state relevant to rounds, addendum and summary (the React
`useState` fields of `DebatePageContent`). -/
structure DebateState where
  finalPrompt : String
  round1Results : RoundResults
  round2Results : RoundResults
  round2AddendumDraft : String
  round2AddendumCommitted : Option String
  round2Started : Bool
  summaryMode : SummaryMode
  summaryResult : String
  summarySourceRound : Option Nat
  debateError : String
  summaryError : String
deriving Repr

/-- A user edit of the addendum textarea (`setRound2AddendumDraft`). -/
def editDraft (text : String) (s : DebateState) : DebateState :=
  { s with round2AddendumDraft := text }

/-- `handleRunRound2()`: guard on round-1 completion and a non-empty final
prompt, snapshot the draft into the committed addendum, run round 2 with that
snapshot, and reveal the two-round summary section.  The transport and JSON
parser are the abstract `call` and `jp`. -/
def handleRunRound2 (jp : JsonParseFn) (call : DebaterRole → String → String → ApiOutcome)
    (lang : UiLang) (models : DebaterRole → String) (s : DebateState) : DebateState :=
  let s := { s with debateError := "", summaryError := "", summaryResult := "",
                    summarySourceRound := none }
  if !hasRoundCompleted s.round1Results then
    { s with debateError := tr lang "请先完成第一轮讨论。" "Please complete Round 1 first." }
  else
    let prompt := jsTrim s.finalPrompt
    if prompt.isEmpty then
      { s with debateError := tr lang "请先在步骤2输入你的正式 Prompt。" "Please enter your final prompt in Step 2 first." }
    else
      let committedAddendum := normalizeOptionalText (some s.round2AddendumDraft)
      { s with
        round2Results :=
          runDebateRound jp call lang models 2 prompt committedAddendum s.round1Results
        round2AddendumCommitted := committedAddendum
        round2Started := true
        summaryMode := .round2 }

/-- The addendum argument `handleGenerateSummary(useRound2)` passes to
`buildSummaryPrompt`: the committed snapshot on the two-round path, the
normalized live draft otherwise. -/
def summaryAddendum (useRound2 : Bool) (s : DebateState) : Option String :=
  if useRound2 then s.round2AddendumCommitted
  else normalizeOptionalText (some s.round2AddendumDraft)

/-- The summary prompt built by `handleGenerateSummary(useRound2)` (after its
guards pass). -/
def summaryPromptOf (useRound2 : Bool) (s : DebateState) : String :=
  buildSummaryPrompt (jsTrim s.finalPrompt) s.round1Results
    (if useRound2 then some s.round2Results else none)
    (summaryAddendum useRound2 s)

/-- The state change of `handleSkipRound2AndSummarize()` before it invokes
`handleGenerateSummary(false)`. -/
def skipRound2State (s : DebateState) : DebateState :=
  { s with round2Started := false, summaryMode := .round1 }

/-! ## Specification-side definitions and concrete fixtures -/

/-- The event block of one fallback retry: `sleep(200)` then the call, for
each model of a list in order. -/
def retryEvents : List String → List CallEvent
  | [] => []
  | m :: rest => CallEvent.wait 200 :: CallEvent.call m :: retryEvents rest

/-- How one participant result is rendered inside a context block (label,
speaker, then its perspective/counterpoint lines). -/
def renderedSection (label : String) (r : DebaterResult) : String :=
  match r.parsed with
  | some p => label ++ p.speaker ++ "\n" ++ jsJoin "\n" (extractParsedLines r)
  | none => ""

/-- Modelled from the spec: the context sections contributed by a list of
participant slots are exactly the rendered outputs of the slots whose
StructuredOutput is non-null, in order. -/
def specSections (label : String) (slots : List (Option DebaterResult)) : List String :=
  slots.filterMap (fun o => o.bind (fun r => r.parsed.map (fun _ => renderedSection label r)))

/-- Modelled from the spec: the context block for participant `role` of round
`round` contains exactly the round-1 sections of every participant with a
non-null parse (when `round = 2`) followed by the current-round sections of
the participants strictly before `role`. -/
def specContext (role : DebaterRole) (round : Nat) (round1Results currentRoundResults : RoundResults) :
    String :=
  jsJoin "\n\n"
    ((if round = 2 then specSections "第一轮 " (DEBATER_ROLES.map (round1Results.get ·)) else []) ++
      specSections ("第" ++ toString round ++ "轮 ")
        ((DEBATER_ROLES.take (debaterIndex role)).map (currentRoundResults.get ·)))

/-- The orchestrator's per-result invariant: an errored result carries a null
parse, and a non-null parse has at least one perspective or counterpoint
(what `runDebateRound` and `parseDebaterOutput` actually produce). -/
def wfResultB (r : DebaterResult) : Bool :=
  (!r.error.isSome || r.parsed.isNone) &&
  (match r.parsed with
   | some p => !(p.newPerspectives.isEmpty && p.counterpoints.isEmpty)
   | none => true)

/-- `wfResultB` over every populated slot of a results record. -/
def wfResultsB (rr : RoundResults) : Bool :=
  DEBATER_ROLES.all (fun role =>
    match rr.get role with
    | some r => wfResultB r
    | none => true)

/-- The JS number `0.5`, a positive non-integral token override. -/
def halfQ : ℚ := ⟨1, 2, by decide, by decide⟩

/-- Fixture: a configured pool of three models `[mv/m1, nv/n1, ov/o1]`. -/
def envPool3 : Env := { emptyEnv with openrouterModels := some "mv/m1,nv/n1,ov/o1" }

/-- Fixture: the primary model is rate-limited, the second pool model
succeeds, the third would succeed if (wrongly) called. -/
def providerPool3 : String → ProviderOutcome := fun m =>
  if m = "mv/m1" then .httpFailure 429 "rl-body"
  else if m = "nv/n1" then .success "hello" "nv/n1-served"
  else .success "third" "ov/o1-served"

/-- Fixture: a provider whose every model is rate-limited. -/
def providerAll429 : String → ProviderOutcome := fun _ => .httpFailure 429 "b"

/-- Fixture: a `runRole` input resolving to primary model `mv/m1` through the
role map, with no pinned model and defaulted fallback. -/
def inputPool3 : RunRoleInput :=
  { role := .refiner
    model := none
    roleModelMap := fun r => if r = LlmRole.refiner then some "mv/m1" else none
    allowFallback := none
    maxTokens := none }

/-- Fixture: a round-1 record whose first slot parsed to an output with no
perspectives and no counterpoints (non-null parse, nothing renderable). -/
def emptyParseRound1 : RoundResults :=
  ⟨some ⟨"m", "raw", some ⟨"1号辩手", [], []⟩, none⟩, none, none⟩

/-- Fixture: a well-formed round-1 record with one renderable first slot. -/
def goodRound1 : RoundResults :=
  ⟨some ⟨"m", "raw", some ⟨"1号辩手", ["idea1"], []⟩, none⟩, none, none⟩

/-- Fixture: a fully populated round record (every slot attempted). -/
def fullRound : RoundResults :=
  ⟨some ⟨"m1", "r1", some ⟨"1号辩手", ["idea1"], []⟩, none⟩,
   some ⟨"m2", "", none, some "boom"⟩,
   some ⟨"m3", "r3", some ⟨"3号辩手", [], ["cp"]⟩, none⟩⟩

/-- Fixture: a trivial JSON parser that fails on every string. -/
def jpNone : JsonParseFn := fun _ => none

/-- Fixture: a JSON parser recognising exactly one object string `j`. -/
def jpObjFixture : JsonParseFn := fun s =>
  if s = "j" then
    some (.jobj [("new_perspectives", .jarr [.jobj [("contents", .jstr " x ")]])])
  else none

/-- Fixture: a transport where the second debater throws a token-overflow
`Error` and the others succeed with unparseable content. -/
def callFixture : DebaterRole → String → String → ApiOutcome := fun role _ _ =>
  match role with
  | .debater_b => .failure "max tokens exceeded"
  | _ => .success "m" "not json"

/-- Fixture: a page state with round 1 completed and a pending draft. -/
def stateAfterRound1 : DebateState :=
  { finalPrompt := " P "
    round1Results := fullRound
    round2Results := emptyRoundResults
    round2AddendumDraft := " note "
    round2AddendumCommitted := none
    round2Started := false
    summaryMode := .hidden
    summaryResult := ""
    summarySourceRound := none
    debateError := ""
    summaryError := "" }

/-! ## Helper lemmas -/

theorem isAllowedModel_of_pattern {env : Env} {m : String}
    (h1 : (jsTrim m).isEmpty = false) (h2 : matchesModelPattern (jsTrim m) = true) :
    isAllowedModel env m = true := by
  unfold isAllowedModel
  simp only [h1, Bool.false_eq_true, if_false]
  cases hc : (getAvailableModels env).contains (jsTrim m) <;> simp [hc, h2]

theorem isAllowedModel_default (env : Env) (role : LlmRole) :
    isAllowedModel env (DEFAULT_ROLE_MODEL_MAP role) = true := by
  cases role <;> exact isAllowedModel_of_pattern (by decide) (by decide)

theorem resolveModelForRole_total (env : Env) (role : LlmRole) (map : RoleModelMap) :
    ∃ m, resolveModelForRole env role map = .ok m ∧
      (m = DEFAULT_ROLE_MODEL_MAP role ∨
        ∃ raw, map role = some raw ∧ m = jsTrim raw ∧ isAllowedModel env m = true) := by
  unfold resolveModelForRole
  cases hreq : map role with
  | none =>
    refine ⟨DEFAULT_ROLE_MODEL_MAP role, ?_, Or.inl rfl⟩
    simp [isAllowedModel_default env role]
  | some raw =>
    cases hhit : (!(jsTrim raw).isEmpty && isAllowedModel env (jsTrim raw)) with
    | true =>
      refine ⟨jsTrim raw, ?_, Or.inr ⟨raw, rfl, rfl, (Bool.and_eq_true .. ▸ hhit).2⟩⟩
      simp [hhit]
    | false =>
      refine ⟨DEFAULT_ROLE_MODEL_MAP role, ?_, Or.inl rfl⟩
      simp [hhit, isAllowedModel_default env role]

/-! ## Claim theorems -/

/-- C10: `resolveModelForRole` is total and never reaches its
no-available-models configuration error: every entry of the static per-role
default map matches the vendor/model-name allow pattern, so `isAllowedModel`
holds of every static default under every environment, and the function
always returns either an allowed trimmed map entry or the role's static
default. -/
theorem resolveModelForRole_never_config_error :
    (∀ role, matchesModelPattern (DEFAULT_ROLE_MODEL_MAP role) = true) ∧
    (∀ env role, isAllowedModel env (DEFAULT_ROLE_MODEL_MAP role) = true) ∧
    (∀ env role (map : RoleModelMap),
      ∃ m, resolveModelForRole env role map = .ok m ∧
        (m = DEFAULT_ROLE_MODEL_MAP role ∨
          ∃ raw, map role = some raw ∧ m = jsTrim raw ∧ isAllowedModel env m = true)) := by
  refine ⟨fun role => by cases role <;> decide, isAllowedModel_default, resolveModelForRole_total⟩

/-- C8: when the caller does not pass `allowFallback` explicitly, fallback is
enabled exactly when no explicit model was pinned: the default is `true` for a
request whose model field is absent (or trims to empty), and `false` for a
request that pins a non-empty explicit model. -/
theorem runRole_allowFallback_default (input : RunRoleInput)
    (h : input.allowFallback = none) :
    (runRoleAllowFallback input = true ↔ pinnedModel input = none) ∧
    (input.model = none → runRoleAllowFallback input = true) ∧
    (∀ s, input.model = some s → (jsTrim s).isEmpty = false →
      runRoleAllowFallback input = false) := by
  refine ⟨?_, ?_, ?_⟩
  · unfold runRoleAllowFallback
    rw [h]
    cases hp : pinnedModel input <;> simp [hp, Option.getD]
  · intro hm
    unfold runRoleAllowFallback pinnedModel
    rw [h, hm]
    rfl
  · intro s hm hs
    unfold runRoleAllowFallback pinnedModel
    rw [h, hm]
    simp [hs]

/-- Witness for C8 at a concrete pinned and unpinned input. -/
theorem runRole_allowFallback_default_witness :
    runRoleAllowFallback
        { role := .refiner, model := some " mv/m1 ", roleModelMap := fun _ => none,
          allowFallback := none, maxTokens := none } = false ∧
    runRoleAllowFallback
        { role := .refiner, model := none, roleModelMap := fun _ => none,
          allowFallback := none, maxTokens := none } = true :=
  ⟨(runRole_allowFallback_default _ rfl).2.2 " mv/m1 " rfl (by decide),
   (runRole_allowFallback_default _ rfl).2.1 rfl⟩

/-- C6 counterexample: `runRole` uses a pinned explicit model even when it is
not allowed, instead of falling through to the (allowed) role-map entry as the
claimed precedence would require: with explicit model `###` (which matches
neither the pool nor the allow pattern) and an allowed map entry for the role,
the selected model is `###`. -/
theorem runRole_model_precedence_counterexample :
    runRoleSelectedModel emptyEnv
        { role := .refiner, model := some "###",
          roleModelMap := fun r => if r = LlmRole.refiner then some "openai/gpt-oss-120b:free" else none,
          allowFallback := none, maxTokens := none } = .ok "###" ∧
    isAllowedModel emptyEnv "###" = false ∧
    isAllowedModel emptyEnv "openai/gpt-oss-120b:free" = true := by
  refine ⟨rfl, by decide, by decide⟩

/-- C6 (amended): model resolution in `runRole` applies this precedence: the
explicit request model whenever present (non-empty after trimming) regardless
of allowedness — the allowedness check on explicit models lives at the HTTP
boundary, not in `runRole` — else the role's trimmed entry of the
caller-supplied role-model map if present, non-empty and allowed, else the
static per-role default; a model is always selected, so the pool-first-entry
fallback and the configuration error (reachable only with an empty pool and a
disallowed default) are never exercised. -/
theorem runRole_model_precedence (env : Env) (input : RunRoleInput) :
    (∀ m, pinnedModel input = some m → runRoleSelectedModel env input = .ok m) ∧
    (pinnedModel input = none →
      ∀ raw, input.roleModelMap input.role = some raw → (jsTrim raw).isEmpty = false →
        isAllowedModel env (jsTrim raw) = true →
        runRoleSelectedModel env input = .ok (jsTrim raw)) ∧
    (pinnedModel input = none →
      (∀ raw, input.roleModelMap input.role = some raw →
        (jsTrim raw).isEmpty = true ∨ isAllowedModel env (jsTrim raw) = false) →
      runRoleSelectedModel env input = .ok (DEFAULT_ROLE_MODEL_MAP input.role)) ∧
    (∃ m, runRoleSelectedModel env input = .ok m) := by
  refine ⟨?_, ?_, ?_, ?_⟩
  · intro m hm
    unfold runRoleSelectedModel
    rw [hm]
  · intro hp raw hraw hne hallow
    unfold runRoleSelectedModel
    rw [hp]
    unfold resolveModelForRole
    rw [hraw]
    simp [hne, hallow]
  · intro hp hbad
    unfold runRoleSelectedModel
    rw [hp]
    unfold resolveModelForRole
    cases hraw : input.roleModelMap input.role with
    | none => simp [isAllowedModel_default env input.role]
    | some raw =>
      rcases hbad raw hraw with h | h <;>
        simp [h, isAllowedModel_default env input.role]
  · cases hp : pinnedModel input with
    | some m =>
      refine ⟨m, ?_⟩
      unfold runRoleSelectedModel
      rw [hp]
    | none =>
      obtain ⟨m, hm, -⟩ := resolveModelForRole_total env input.role input.roleModelMap
      refine ⟨m, ?_⟩
      unfold runRoleSelectedModel
      rw [hp, hm]

/-- Witness for C6 at concrete inputs exercising each precedence level. -/
theorem runRole_model_precedence_witness :
    runRoleSelectedModel emptyEnv
        { role := .refiner, model := some " mv/m1 ",
          roleModelMap := fun _ => some "openai/gpt-oss-120b:free",
          allowFallback := none, maxTokens := none } = .ok "mv/m1" ∧
    runRoleSelectedModel emptyEnv inputPool3 = .ok "mv/m1" ∧
    runRoleSelectedModel emptyEnv
        { inputPool3 with roleModelMap := fun _ => some "###" } =
      .ok "qwen/qwen3-next-80b-a3b-instruct:free" :=
  ⟨(runRole_model_precedence emptyEnv _).1 "mv/m1" (by decide),
   (runRole_model_precedence emptyEnv inputPool3).2.1 (by decide) "mv/m1" (by decide)
     (by decide) (by decide),
   (runRole_model_precedence emptyEnv _).2.2.1 (by decide)
     (fun raw hraw => by
        simp only [inputPool3] at hraw
        exact Or.inr (by
          cases hraw
          decide))⟩

theorem parsePositiveInt_pos {raw : Option String} {n : Nat}
    (h : parsePositiveInt raw = some n) : 0 < n := by
  unfold parsePositiveInt at h
  cases raw with
  | none => simp at h
  | some s =>
    by_cases he : s.isEmpty
    · simp [he] at h
    · simp only [he, Bool.false_eq_true, if_false] at h
      cases hv : jsParseInt (jsTrim s) with
      | none => rw [hv] at h; simp at h
      | some v =>
        rw [hv] at h
        dsimp only at h
        by_cases hv0 : v ≤ 0
        · simp [hv0] at h
        · rw [if_neg hv0] at h
          cases h
          omega

theorem one_le_hardCapOf (env : Env) : 1 ≤ hardCapOf env := by
  unfold hardCapOf
  cases h : parsePositiveInt env.openrouterMaxTokensCap with
  | none => simp
  | some n => simpa using parsePositiveInt_pos h

theorem ratFloorJs_eq_floor (q : ℚ) : ratFloorJs q = ⌊q⌋ := by
  unfold ratFloorJs
  rw [Int.fdiv_eq_ediv _ (Int.natCast_nonneg q.den)]
  exact Rat.floor_def.symm

theorem one_le_ratFloorJs {q : ℚ} (h : 1 ≤ q) : 1 ≤ ratFloorJs q := by
  rw [ratFloorJs_eq_floor]
  exact Int.le_floor.mpr (by exact_mod_cast h)

/-- C7 counterexample: the claim says the effective budget is always a
positive integer, but the JS number `0.5` is a legal override and
`Math.floor(0.5) = 0` makes the effective budget `0` (also ≠ the claimed
`min(override, cap) = 0.5`). -/
theorem resolveMaxTokens_counterexample :
    resolveMaxTokens emptyEnv LlmRole.refiner (some halfQ) = 0 ∧
    ¬ 0 < resolveMaxTokens emptyEnv LlmRole.refiner (some halfQ) ∧
    0 < halfQ ∧ halfQ < 1 :=
  ⟨by decide, by decide, by decide, by decide⟩

/-- C7 (amended): the effective budget equals
`min(floor(override) when override > 0, else per-role env value, else per-role
default, cap)`; it never exceeds the global cap, and it is a positive integer
whenever the override is absent, non-positive, or at least 1 — only a
fractional override strictly between 0 and 1 floors to a non-positive budget.
With cap 4096 and override 900 the budget is 900; with cap 500 and override
900 it is 500. -/
theorem resolveMaxTokens_spec (env : Env) (role : LlmRole) (override : Option ℚ) :
    resolveMaxTokens env role override ≤ (hardCapOf env : Int) ∧
    (override = none → 0 < resolveMaxTokens env role override) ∧
    (∀ q, override = some q → q ≤ 0 → 0 < resolveMaxTokens env role override) ∧
    (∀ q, override = some q → 1 ≤ q →
      0 < resolveMaxTokens env role override ∧
      resolveMaxTokens env role override = min (ratFloorJs q) ((hardCapOf env : Int))) := by
  have hcap : (0 : Int) < (hardCapOf env : Int) := by
    exact_mod_cast Nat.lt_of_lt_of_le Nat.zero_lt_one (one_le_hardCapOf env)
  have hbase : (0 : Int) <
      (match parsePositiveInt (env.roleMaxTokens role) with
       | some n => (n : Int)
       | none => (defaultRoleMaxTokens role : Int)) := by
    cases h : parsePositiveInt (env.roleMaxTokens role) with
    | some n =>
      show (0 : Int) < (n : Int)
      exact_mod_cast parsePositiveInt_pos h
    | none =>
      show (0 : Int) < (defaultRoleMaxTokens role : Int)
      cases role <;> decide
  refine ⟨?_, ?_, ?_, ?_⟩
  · unfold resolveMaxTokens
    exact min_le_right _ _
  · intro h
    unfold resolveMaxTokens
    rw [h]
    exact lt_min hbase hcap
  · intro q hq hq0
    unfold resolveMaxTokens
    rw [hq]
    dsimp only
    rw [if_neg (not_lt.mpr hq0)]
    exact lt_min hbase hcap
  · intro q hq h1
    have h0 : (0 : ℚ) < q := lt_of_lt_of_le one_pos h1
    constructor
    · unfold resolveMaxTokens
      rw [hq]
      dsimp only
      rw [if_pos h0]
      exact lt_min (lt_of_lt_of_le Int.zero_lt_one (one_le_ratFloorJs h1)) hcap
    · unfold resolveMaxTokens
      rw [hq]
      dsimp only
      rw [if_pos h0]

/-- Witness for C7 at the spec's two numeric scenarios and an absent override. -/
theorem resolveMaxTokens_spec_witness :
    resolveMaxTokens emptyEnv LlmRole.refiner (some 900) = 900 ∧
    resolveMaxTokens { emptyEnv with openrouterMaxTokensCap := some "500" }
        LlmRole.refiner (some 900) = 500 ∧
    0 < resolveMaxTokens emptyEnv LlmRole.summarizer none := by
  refine ⟨?_, ?_, (resolveMaxTokens_spec emptyEnv LlmRole.summarizer none).2.1 rfl⟩
  · rw [((resolveMaxTokens_spec emptyEnv LlmRole.refiner (some 900)).2.2.2 900 rfl (by decide)).2]
    decide
  · rw [((resolveMaxTokens_spec { emptyEnv with openrouterMaxTokensCap := some "500" }
        LlmRole.refiner (some 900)).2.2.2 900 rfl (by decide)).2]
    decide

theorem jsSetDedupGo_spec (l : List String) :
    ∀ seen, (∀ y ∈ jsSetDedupGo l seen, y ∉ seen) ∧ (jsSetDedupGo l seen).Nodup := by
  induction l with
  | nil =>
    intro seen
    exact ⟨fun y hy => by simp [jsSetDedupGo] at hy, by simp [jsSetDedupGo]⟩
  | cons x xs ih =>
    intro seen
    cases hc : seen.contains x with
    | true =>
      simp only [jsSetDedupGo, hc, if_true]
      exact ih seen
    | false =>
      have hxs : x ∉ seen := by simpa using hc
      simp only [jsSetDedupGo, hc, Bool.false_eq_true, if_false]
      refine ⟨?_, ?_⟩
      · intro y hy
        rcases List.mem_cons.mp hy with rfl | hy2
        · exact hxs
        · exact fun hmem => (ih (x :: seen)).1 y hy2 (List.mem_cons_of_mem _ hmem)
      · rw [List.nodup_cons]
        exact ⟨fun hmem => (ih (x :: seen)).1 x hmem (List.mem_cons_self x seen),
               (ih (x :: seen)).2⟩

theorem jsSetDedup_nodup (l : List String) : (jsSetDedup l).Nodup :=
  (jsSetDedupGo_spec l []).2

theorem getAvailableModels_nodup (env : Env) : (getAvailableModels env).Nodup := by
  unfold getAvailableModels
  exact jsSetDedup_nodup _

theorem getFallbackModels_nodup (env : Env) (primary : String) :
    (getFallbackModels env primary).Nodup :=
  (getAvailableModels_nodup env).filter _

theorem mem_getFallbackModels_ne (env : Env) {primary m : String}
    (h : m ∈ getFallbackModels env primary) : m ≠ primary := by
  unfold getFallbackModels at h
  simpa using (List.mem_filter.mp h).2

theorem calledModels_retryEvents (l : List String) : calledModels (retryEvents l) = l := by
  induction l with
  | nil => rfl
  | cons m rest ih => simp [retryEvents, calledModels, List.filterMap] at ih ⊢; exact ih

theorem fallbackLoop_all429 (provider : String → ProviderOutcome) (primaryBody : String) :
    ∀ (l attempted : List String),
      (∀ m ∈ l, ∃ b, provider m = .httpFailure 429 b) →
      fallbackLoop provider primaryBody attempted l =
        (.httpThrown 429 primaryBody (aggregatedMessage (attempted ++ l)), retryEvents l) := by
  intro l
  induction l with
  | nil => intro attempted _; simp [fallbackLoop, retryEvents]
  | cons x xs ih =>
    intro attempted h
    obtain ⟨b, hb⟩ := h x (List.mem_cons_self x xs)
    have hrec := ih (attempted ++ [x]) (fun m hm => h m (List.mem_cons_of_mem _ hm))
    have hl : attempted ++ x :: xs = attempted ++ [x] ++ xs := by simp
    simp only [fallbackLoop, hb, hrec, retryEvents, hl]
    simp

theorem fallbackLoop_first_success (provider : String → ProviderOutcome) (primaryBody : String)
    (c rm : String) :
    ∀ (pre : List String) (n : String) (post attempted : List String),
      (∀ m ∈ pre, ∃ b, provider m = .httpFailure 429 b) →
      provider n = .success c rm →
      fallbackLoop provider primaryBody attempted (pre ++ n :: post) =
        (.ok c rm, retryEvents pre ++ [CallEvent.wait 200, CallEvent.call n]) := by
  intro pre
  induction pre with
  | nil =>
    intro n post attempted _ hn
    simp [fallbackLoop, hn, retryEvents]
  | cons x xs ih =>
    intro n post attempted h hn
    obtain ⟨b, hb⟩ := h x (List.mem_cons_self x xs)
    have hrec := ih n post (attempted ++ [x]) (fun m hm => h m (List.mem_cons_of_mem _ hm)) hn
    simp only [List.cons_append, fallbackLoop, hb, retryEvents]
    simp [hrec]

theorem mentions_jsJoin {l : List String} {sep m : String} (h : m ∈ l) :
    mentions (jsJoin sep l) m := by
  induction l with
  | nil => simp at h
  | cons x xs ih =>
    cases xs with
    | nil =>
      rcases List.mem_cons.mp h with rfl | h2
      · exact ⟨[], [], by simp [jsJoin]⟩
      · simp at h2
    | cons y rest =>
      rcases List.mem_cons.mp h with rfl | h2
      · exact ⟨[], (sep ++ jsJoin sep (y :: rest)).data,
          by simp [jsJoin, String.data_append]⟩
      · obtain ⟨pre, post, hpp⟩ := ih h2
        exact ⟨(x ++ sep).data ++ pre, post,
          by simp [jsJoin, String.data_append, hpp]⟩

theorem mentions_aggregatedMessage {l : List String} {m : String} (h : m ∈ l) :
    mentions (aggregatedMessage l) m := by
  obtain ⟨pre, post, hpp⟩ := @mentions_jsJoin _ ", " _ h
  refine ⟨"OpenRouter free models are currently rate-limited. Tried: ".data ++ pre,
    post ++ ". Please retry shortly or use BYOK (your own provider key).".data, ?_⟩
  simp [aggregatedMessage, String.data_append, hpp]

theorem calledModels_cons_call (m : String) (t : List CallEvent) :
    calledModels (CallEvent.call m :: t) = m :: calledModels t := by
  simp [calledModels]

theorem calledModels_cons_wait (k : Nat) (t : List CallEvent) :
    calledModels (CallEvent.wait k :: t) = calledModels t := by
  simp [calledModels]

theorem calledModels_append (a b : List CallEvent) :
    calledModels (a ++ b) = calledModels a ++ calledModels b := by
  simp [calledModels]

theorem call_mem_retryEvents {m : String} {l : List String} :
    CallEvent.call m ∈ retryEvents l ↔ m ∈ l := by
  induction l with
  | nil => simp [retryEvents]
  | cons x xs ih => simp [retryEvents, ih]

/-- C1: when the primary attempt fails with HTTP 429 and fallback is enabled,
`runRole` retries the remaining pool (the available-model list minus the
primary) serially in pool order with a fixed 200 ms sleep before each retry,
returns the first successful response, and never calls any pool model after
the first success; the attempted models are exactly the primary followed by
the failing prefix and the succeeding model. -/
theorem runRole_fallback_first_success (env : Env) (provider : String → ProviderOutcome)
    (input : RunRoleInput) (M body : String) (pre : List String) (n : String)
    (post : List String) (c rm : String)
    (hM : runRoleSelectedModel env input = .ok M)
    (hAF : runRoleAllowFallback input = true)
    (hPrim : provider M = .httpFailure 429 body)
    (hPool : getFallbackModels env M = pre ++ n :: post)
    (hPre : ∀ m ∈ pre, ∃ b, provider m = .httpFailure 429 b)
    (hN : provider n = .success c rm) :
    runRole env provider input =
      (.ok c rm, CallEvent.call M :: (retryEvents pre ++ [CallEvent.wait 200, CallEvent.call n])) ∧
    calledModels (runRole env provider input).2 = M :: (pre ++ [n]) ∧
    ∀ m ∈ post, CallEvent.call m ∉ (runRole env provider input).2 := by
  have hfb := fallbackLoop_first_success provider body c rm pre n post [M] hPre hN
  have hrun : runRole env provider input =
      (.ok c rm, CallEvent.call M :: (retryEvents pre ++ [CallEvent.wait 200, CallEvent.call n])) := by
    unfold runRole
    rw [hM]
    dsimp only
    rw [hPrim]
    dsimp only
    rw [hAF, hPool, hfb]
    simp
  refine ⟨hrun, ?_, ?_⟩
  · rw [hrun]
    simp only [calledModels_cons_call, calledModels_append, calledModels_retryEvents]
    simp [calledModels]
  · intro m hm
    have hne_M : m ≠ M := mem_getFallbackModels_ne env
      (by rw [hPool]; exact List.mem_append_right _ (List.mem_cons_of_mem _ hm))
    have hnd : (pre ++ n :: post).Nodup := hPool ▸ getFallbackModels_nodup env M
    obtain ⟨-, hnd2, hdisj⟩ := List.nodup_append.mp hnd
    have hnp : m ∉ pre := fun hmp => hdisj hmp (List.mem_cons_of_mem _ hm)
    have hnn : m ≠ n := by
      rcases List.nodup_cons.mp hnd2 with ⟨hnpost, -⟩
      exact fun he => hnpost (he ▸ hm)
    rw [hrun]
    simp [call_mem_retryEvents, hne_M, hnp, hnn]

/-- Witness for C1: pool `[mv/m1, nv/n1, ov/o1]`, primary `mv/m1` rate-limited,
`nv/n1` succeeds; the result is `nv/n1`'s content and `ov/o1` is never called. -/
theorem runRole_fallback_first_success_witness :
    runRole envPool3 providerPool3 inputPool3 =
      (.ok "hello" "nv/n1-served",
       [CallEvent.call "mv/m1", CallEvent.wait 200, CallEvent.call "nv/n1"]) ∧
    CallEvent.call "ov/o1" ∉ (runRole envPool3 providerPool3 inputPool3).2 := by
  have h := runRole_fallback_first_success envPool3 providerPool3 inputPool3 "mv/m1" "rl-body"
    [] "nv/n1" ["ov/o1"] "hello" "nv/n1-served" rfl rfl rfl rfl (by simp) rfl
  exact ⟨h.1, h.2.2 "ov/o1" (by simp)⟩

/-- C2: a primary failure that is not an HTTP 429 (any non-HTTP error, or an
HTTP error with another status), or a 429 when fallback is disallowed,
propagates immediately with no further call; and when the primary and every
remaining pool candidate fail with 429, `runRole` raises exactly one
aggregated 429 error whose message names every attempted model. -/
theorem runRole_error_propagation (env : Env) (provider : String → ProviderOutcome)
    (input : RunRoleInput) (M : String)
    (hM : runRoleSelectedModel env input = .ok M) :
    (∀ msg, provider M = .otherFailure msg →
      runRole env provider input = (.otherThrown msg, [CallEvent.call M])) ∧
    (∀ st b, provider M = .httpFailure st b → st ≠ 429 →
      runRole env provider input =
        (.httpThrown st b (defaultHttpMessage st b), [CallEvent.call M])) ∧
    (∀ b, provider M = .httpFailure 429 b → runRoleAllowFallback input = false →
      runRole env provider input =
        (.httpThrown 429 b (defaultHttpMessage 429 b), [CallEvent.call M])) ∧
    (∀ b, provider M = .httpFailure 429 b → runRoleAllowFallback input = true →
      (∀ m ∈ getFallbackModels env M, ∃ bm, provider m = .httpFailure 429 bm) →
      runRole env provider input =
        (.httpThrown 429 b (aggregatedMessage (M :: getFallbackModels env M)),
         CallEvent.call M :: retryEvents (getFallbackModels env M)) ∧
      ∀ m ∈ M :: getFallbackModels env M,
        mentions (aggregatedMessage (M :: getFallbackModels env M)) m) := by
  refine ⟨?_, ?_, ?_, ?_⟩
  · intro msg h
    unfold runRole
    rw [hM]
    dsimp only
    rw [h]
  · intro st b h hst
    unfold runRole
    rw [hM]
    dsimp only
    rw [h]
    dsimp only
    simp [hst]
  · intro b h hAF
    unfold runRole
    rw [hM]
    dsimp only
    rw [h]
    dsimp only
    simp [hAF]
  · intro b h hAF hall
    have hagg := fallbackLoop_all429 provider b (getFallbackModels env M) [M] hall
    refine ⟨?_, fun m hm => mentions_aggregatedMessage hm⟩
    unfold runRole
    rw [hM]
    dsimp only
    rw [h]
    dsimp only
    rw [hAF, hagg]
    simp

/-- Witness for C2: every pool model rate-limited yields the aggregated error
naming all three models; a 500 propagates immediately after one call. -/
theorem runRole_error_propagation_witness :
    (runRole envPool3 providerAll429 inputPool3).1 =
      .httpThrown 429 "b" (aggregatedMessage ["mv/m1", "nv/n1", "ov/o1"]) ∧
    mentions (aggregatedMessage ["mv/m1", "nv/n1", "ov/o1"]) "ov/o1" ∧
    runRole envPool3 (fun _ => .httpFailure 500 "srv") inputPool3 =
      (.httpThrown 500 "srv" (defaultHttpMessage 500 "srv"), [CallEvent.call "mv/m1"]) := by
  have h := runRole_error_propagation envPool3 providerAll429 inputPool3 "mv/m1" rfl
  have h4 := h.2.2.2 "b" rfl rfl (fun m _ => ⟨"b", rfl⟩)
  refine ⟨?_, ?_, ?_⟩
  · rw [h4.1]
    decide
  · exact h4.2 "ov/o1" (by decide)
  · exact (runRole_error_propagation envPool3 (fun _ => .httpFailure 500 "srv") inputPool3
      "mv/m1" rfl).2.1 500 "srv" rfl (by decide)

theorem parseJsonObject_eq_none_iff (jp : JsonParseFn) (raw : String) :
    parseJsonObject jp raw = none ↔
      ((jsTrim raw).isEmpty = true ∨
       (objParse jp (jsTrim raw) = none ∧
        ∀ sub, braceSlice (jsTrim raw) = some sub → objParse jp sub = none)) := by
  unfold parseJsonObject
  by_cases he : (jsTrim raw).isEmpty
  · simp [he]
  · simp only [he, Bool.false_eq_true, if_false]
    cases ho : objParse jp (jsTrim raw) with
    | some fields => simp [ho, he]
    | none =>
      cases hb : braceSlice (jsTrim raw) with
      | none => simp [hb, he]
      | some sub => simp [hb, he]

/-- C3: for every raw string and fallback label (and every behaviour of the
platform JSON parser), `parseDebaterOutput` returns null exactly when the
trimmed input is empty, or no JSON object parses from the whole trimmed
string nor from its first-`\x7b`-to-last-`\x7d` substring, or both filtered
`contents` lists are empty; otherwise it returns the filtered trimmed
`contents` strings in order, with the object's trimmed `speaker` string or
the fallback label when that field is absent, non-string or empty. -/
theorem parseDebaterOutput_spec (jp : JsonParseFn) (raw fallbackSpeaker : String) :
    (parseDebaterOutput jp raw fallbackSpeaker = none ↔
      ((jsTrim raw).isEmpty = true ∨
       (objParse jp (jsTrim raw) = none ∧
        ∀ sub, braceSlice (jsTrim raw) = some sub → objParse jp sub = none) ∨
       (∃ fields, parseJsonObject jp raw = some fields ∧
         readContentsArray (findProp fields "new_perspectives") = [] ∧
         readContentsArray (findProp fields "counterpoints") = []))) ∧
    (∀ r, parseDebaterOutput jp raw fallbackSpeaker = some r →
      ∃ fields, parseJsonObject jp raw = some fields ∧
        r.newPerspectives = readContentsArray (findProp fields "new_perspectives") ∧
        r.counterpoints = readContentsArray (findProp fields "counterpoints") ∧
        r.speaker = speakerOf fields fallbackSpeaker ∧
        ¬(r.newPerspectives = [] ∧ r.counterpoints = [])) := by
  constructor
  · cases hp : parseJsonObject jp raw with
    | none =>
      unfold parseDebaterOutput
      rw [hp]
      constructor
      · intro _
        rcases (parseJsonObject_eq_none_iff jp raw).mp hp with h | h
        · exact Or.inl h
        · exact Or.inr (Or.inl h)
      · intro _
        rfl
    | some fields =>
      unfold parseDebaterOutput
      rw [hp]
      dsimp only
      by_cases hnp : readContentsArray (findProp fields "new_perspectives") = [] <;>
        by_cases hcp : readContentsArray (findProp fields "counterpoints") = []
      · constructor
        · intro _
          exact Or.inr (Or.inr ⟨fields, rfl, hnp, hcp⟩)
        · intro _
          simp [hnp, hcp]
      all_goals
        refine iff_of_false ?_ ?_
        · simp [List.isEmpty_iff, hnp, hcp]
        · rintro (h1 | h2 | ⟨fields2, hp2, hnp2, hcp2⟩)
          · rw [(parseJsonObject_eq_none_iff jp raw).mpr (Or.inl h1)] at hp
            cases hp
          · rw [(parseJsonObject_eq_none_iff jp raw).mpr (Or.inr h2)] at hp
            cases hp
          · cases hp2
            first
              | exact hnp hnp2
              | exact hcp hcp2
  · intro r hr
    unfold parseDebaterOutput at hr
    cases hp : parseJsonObject jp raw with
    | none =>
      rw [hp] at hr
      cases hr
    | some fields =>
      rw [hp] at hr
      dsimp only at hr
      by_cases hb : (readContentsArray (findProp fields "new_perspectives")).isEmpty &&
          (readContentsArray (findProp fields "counterpoints")).isEmpty
      · rw [if_pos hb] at hr
        cases hr
      · rw [if_neg hb] at hr
        cases hr
        refine ⟨fields, rfl, rfl, rfl, rfl, ?_⟩
        simpa [List.isEmpty_iff] using hb

/-- Witness for C3: a parser recognising one object yields the trimmed
contents with the fallback speaker; prose with no parseable object is null. -/
theorem parseDebaterOutput_spec_witness :
    (∃ fields, parseJsonObject jpObjFixture " j " = some fields ∧
      (["x"] : List String) = readContentsArray (findProp fields "new_perspectives") ∧
      ([] : List String) = readContentsArray (findProp fields "counterpoints") ∧
      ("fb" : String) = speakerOf fields "fb" ∧
      ¬((["x"] : List String) = [] ∧ ([] : List String) = [])) ∧
    parseDebaterOutput jpObjFixture "not json at all" "fb" = none :=
  ⟨(parseDebaterOutput_spec jpObjFixture " j " "fb").2 ⟨"fb", ["x"], []⟩ rfl, rfl⟩

theorem wfResultB_error_none {r : DebaterResult} (hw : wfResultB r = true)
    {p : DebaterParsedOutput} (hp : r.parsed = some p) : r.error = none := by
  unfold wfResultB at hw
  rcases Bool.and_eq_true .. ▸ hw with ⟨h1, -⟩
  cases he : r.error with
  | none => rfl
  | some e =>
    rw [he, hp] at h1
    simp at h1

theorem wfResultB_parse_nonempty {r : DebaterResult} (hw : wfResultB r = true)
    {p : DebaterParsedOutput} (hp : r.parsed = some p) :
    ¬(p.newPerspectives = [] ∧ p.counterpoints = []) := by
  unfold wfResultB at hw
  rcases Bool.and_eq_true .. ▸ hw with ⟨-, h2⟩
  rw [hp] at h2
  intro ⟨hn, hc⟩
  simp [hn, hc] at h2

theorem extractParsedLines_eq_nil {r : DebaterResult} {p : DebaterParsedOutput}
    (hp : r.parsed = some p) :
    (extractParsedLines r = [] ↔ (p.newPerspectives = [] ∧ p.counterpoints = [])) := by
  unfold extractParsedLines
  rw [hp]
  simp

theorem contextSectionFor_of_wf {label : String} {r : DebaterResult}
    (hw : wfResultB r = true) :
    contextSectionFor label (some r) = r.parsed.map (fun _ => renderedSection label r) := by
  cases hp : r.parsed with
  | none =>
    unfold contextSectionFor
    cases he : r.error with
    | none => simp [hasTruthyError, he, hp]
    | some e => cases hee : e.isEmpty <;> simp [hasTruthyError, he, hp, hee]
  | some p =>
    have herr : r.error = none := wfResultB_error_none hw hp
    have hlines : ¬ extractParsedLines r = [] :=
      fun h => wfResultB_parse_nonempty hw hp ((extractParsedLines_eq_nil hp).mp h)
    unfold contextSectionFor renderedSection
    rw [hp]
    simp [hasTruthyError, herr, List.isEmpty_iff, hlines]
    rw [hp]

theorem wfResultsB_get {rr : RoundResults} (hw : wfResultsB rr = true)
    (ρ : DebaterRole) {r : DebaterResult} (hg : rr.get ρ = some r) : wfResultB r = true := by
  simp only [wfResultsB, DEBATER_ROLES, List.all_cons, List.all_nil, Bool.and_true,
    Bool.and_eq_true] at hw
  cases ρ <;> [rw [hg] at hw; rw [hg] at hw; rw [hg] at hw] <;> tauto

theorem sections_eq (label : String) (rr : RoundResults) (hw : wfResultsB rr = true)
    (roles : List DebaterRole) :
    roles.filterMap (fun ρ => contextSectionFor label (rr.get ρ)) =
      specSections label (roles.map (rr.get ·)) := by
  induction roles with
  | nil => rfl
  | cons ρ rest ih =>
    simp only [List.filterMap_cons, List.map_cons, specSections] at ih ⊢
    cases hg : rr.get ρ with
    | none => simpa [Option.bind] using ih
    | some r =>
      rw [contextSectionFor_of_wf (wfResultsB_get hw ρ hg)]
      cases hp : r.parsed <;> simp [hp, Option.bind, ih]

theorem mem_take_debaterIndex {role ρ : DebaterRole}
    (h : ρ ∈ DEBATER_ROLES.take (debaterIndex role)) : debaterIndex ρ < debaterIndex role := by
  cases role <;> cases ρ <;> simp_all [DEBATER_ROLES, debaterIndex]

/-- C4 counterexample: a round-1 slot whose StructuredOutput is non-null but
lists no perspectives and no counterpoints is excluded from the round-2
context (which comes out empty), so "appears in round-2 context iff the
round-1 StructuredOutput is non-null" fails over arbitrary results maps. -/
theorem buildDebateContext_counterexample :
    ((emptyParseRound1.get DebaterRole.debater_a).bind DebaterResult.parsed).isSome = true ∧
    contextSectionFor "第一轮 " (emptyParseRound1.get DebaterRole.debater_a) = none ∧
    buildDebateContext DebaterRole.debater_a 2 emptyParseRound1 emptyRoundResults = "" :=
  ⟨by decide, by decide, by decide⟩

/-- C4 (amended): over results maps satisfying the orchestrator's invariants
(an errored slot has a null parse; a non-null parse has at least one
perspective or counterpoint) the context block for participant `i` of round
`r` contains exactly the rendered round-1 output of every participant with a
non-null round-1 parse (when `r = 2`) followed by the rendered current-round
output of each participant strictly before `i` with a non-null current parse;
a round-1 output appears iff its parse is non-null, and the block is
independent of every current-round slot at positions ≥ `i`. -/
theorem buildDebateContext_spec (role : DebaterRole) (round : Nat)
    (r1 cur : RoundResults)
    (h1 : wfResultsB r1 = true) (h2 : wfResultsB cur = true) :
    buildDebateContext role round r1 cur = specContext role round r1 cur ∧
    (∀ ρ, (contextSectionFor "第一轮 " (r1.get ρ)).isSome =
      ((r1.get ρ).bind DebaterResult.parsed).isSome) ∧
    (∀ cur2 : RoundResults,
      (∀ ρ, debaterIndex ρ < debaterIndex role → cur2.get ρ = cur.get ρ) →
      buildDebateContext role round r1 cur2 = buildDebateContext role round r1 cur) := by
  refine ⟨?_, ?_, ?_⟩
  · unfold buildDebateContext specContext
    dsimp only
    rw [sections_eq _ r1 h1, sections_eq _ cur h2]
  · intro ρ
    cases hg : r1.get ρ with
    | none => rfl
    | some r =>
      rw [contextSectionFor_of_wf (wfResultsB_get h1 ρ hg)]
      simp
  · intro cur2 hagree
    unfold buildDebateContext
    dsimp only
    have : (DEBATER_ROLES.take (debaterIndex role)).filterMap
        (fun ρ => contextSectionFor ("第" ++ toString round ++ "轮 ") (cur2.get ρ)) =
      (DEBATER_ROLES.take (debaterIndex role)).filterMap
        (fun ρ => contextSectionFor ("第" ++ toString round ++ "轮 ") (cur.get ρ)) := by
      apply List.filterMap_congr
      intro ρ hρ
      rw [hagree ρ (mem_take_debaterIndex hρ)]
    rw [this]

/-- Witness for C4 at a concrete well-formed pair of results maps. -/
theorem buildDebateContext_spec_witness :
    buildDebateContext DebaterRole.debater_b 2 goodRound1 emptyRoundResults =
      specContext DebaterRole.debater_b 2 goodRound1 emptyRoundResults ∧
    (contextSectionFor "第一轮 " (goodRound1.get DebaterRole.debater_a)).isSome =
      ((goodRound1.get DebaterRole.debater_a).bind DebaterResult.parsed).isSome :=
  ⟨(buildDebateContext_spec DebaterRole.debater_b 2 goodRound1 emptyRoundResults
      (by decide) (by decide)).1,
   (buildDebateContext_spec DebaterRole.debater_b 2 goodRound1 emptyRoundResults
      (by decide) (by decide)).2.1 DebaterRole.debater_a⟩

/-- C5: after `runDebateRound` completes, every one of the three participant
slots is populated: each holds exactly the result of its own call (so one
participant's failure never prevents the later participants from being
attempted and recorded), and a thrown `Error` is recorded with a null parse
and its message passed through `withContextOverflowHint` (which prepends a
context-length hint when the message matches the token/context-overflow
phrasing). -/
theorem runDebateRound_records_all_slots (jp : JsonParseFn)
    (call : DebaterRole → String → String → ApiOutcome) (lang : UiLang)
    (models : DebaterRole → String) (round : Nat) (prompt : String)
    (addendum : Option String) (round1Results : RoundResults) :
    (∀ role : DebaterRole, ∃ chainedPrompt : String,
      (runDebateRound jp call lang models round prompt addendum round1Results).get role =
        some (debaterStepResult jp lang role (models role)
          (call role (models role) chainedPrompt))) ∧
    (∀ role : DebaterRole,
      ((runDebateRound jp call lang models round prompt addendum round1Results).get role).isSome
        = true) ∧
    (∀ role msg chainedPrompt,
      call role (models role) chainedPrompt = .failure msg →
      debaterStepResult jp lang role (models role) (call role (models role) chainedPrompt) =
        { model := models role, rawContent := "", parsed := none,
          error := some (withContextOverflowHint msg lang) }) := by
  have hall : ∀ role : DebaterRole, ∃ chainedPrompt : String,
      (runDebateRound jp call lang models round prompt addendum round1Results).get role =
        some (debaterStepResult jp lang role (models role)
          (call role (models role) chainedPrompt)) := by
    intro role
    cases role <;> exact ⟨_, rfl⟩
  refine ⟨hall, ?_, ?_⟩
  · intro role
    obtain ⟨p, hp⟩ := hall role
    rw [hp]
    rfl
  · intro role msg chainedPrompt h
    rw [h]
    rfl

/-- Witness for C5: with the second debater throwing a token-overflow error,
all three slots are populated and the errored slot records the hinted message
with a null parse. -/
theorem runDebateRound_records_all_slots_witness :
    (runDebateRound jpNone callFixture UiLang.en (fun _ => "mod") 1 "P" none
        emptyRoundResults).get DebaterRole.debater_b =
      some { model := "mod", rawContent := "", parsed := none,
             error := some (withContextOverflowHint "max tokens exceeded" UiLang.en) } ∧
    ((runDebateRound jpNone callFixture UiLang.en (fun _ => "mod") 1 "P" none
        emptyRoundResults).get DebaterRole.debater_c).isSome = true ∧
    withContextOverflowHint "max tokens exceeded" UiLang.en =
      "Context is too long. Reduce rounds or shorten input, then retry.\n\nOriginal error: max tokens exceeded" := by
  have h := runDebateRound_records_all_slots jpNone callFixture UiLang.en (fun _ => "mod") 1 "P"
    none emptyRoundResults
  refine ⟨?_, h.2.1 DebaterRole.debater_c, by decide⟩
  obtain ⟨p, hp⟩ := h.1 DebaterRole.debater_b
  rw [hp]
  rfl

/-- C9: the skip-round-2 path feeds the summary the normalized *live* draft at
skip time and never consults the committed snapshot (changing the committed
field does not change the skip-path summary prompt), while starting round 2
snapshots the draft into the committed addendum, runs round 2 from that
snapshot, and the two-round summary prompt and the stored round-2 results are
unaffected by any draft edit made after round 2 started. -/
theorem addendum_snapshot_semantics (jp : JsonParseFn)
    (call : DebaterRole → String → String → ApiOutcome) (lang : UiLang)
    (models : DebaterRole → String) (s : DebateState) (d : String)
    (h1 : hasRoundCompleted s.round1Results = true)
    (h2 : (jsTrim s.finalPrompt).isEmpty = false) :
    (∀ c : Option String,
      summaryPromptOf false (skipRound2State { s with round2AddendumCommitted := c }) =
        buildSummaryPrompt (jsTrim s.finalPrompt) s.round1Results none
          (normalizeOptionalText (some s.round2AddendumDraft))) ∧
    (handleRunRound2 jp call lang models s).round2AddendumCommitted =
      normalizeOptionalText (some s.round2AddendumDraft) ∧
    (handleRunRound2 jp call lang models s).round2Results =
      runDebateRound jp call lang models 2 (jsTrim s.finalPrompt)
        (normalizeOptionalText (some s.round2AddendumDraft)) s.round1Results ∧
    (editDraft d (handleRunRound2 jp call lang models s)).round2Results =
      (handleRunRound2 jp call lang models s).round2Results ∧
    summaryPromptOf true (editDraft d (handleRunRound2 jp call lang models s)) =
      summaryPromptOf true (handleRunRound2 jp call lang models s) := by
  have hs2 : handleRunRound2 jp call lang models s =
      { s with debateError := "", summaryError := "", summaryResult := "",
               summarySourceRound := none,
               round2Results := runDebateRound jp call lang models 2 (jsTrim s.finalPrompt)
                 (normalizeOptionalText (some s.round2AddendumDraft)) s.round1Results,
               round2AddendumCommitted := normalizeOptionalText (some s.round2AddendumDraft),
               round2Started := true,
               summaryMode := .round2 } := by
    unfold handleRunRound2
    dsimp only
    simp only [h1, h2, Bool.not_true, Bool.false_eq_true, if_false]
  refine ⟨fun c => rfl, ?_, ?_, rfl, rfl⟩
  · rw [hs2]
  · rw [hs2]

/-- Witness for C9 at a concrete post-round-1 state: the committed snapshot is
the normalized draft, and the skip-path prompt ignores the committed field. -/
theorem addendum_snapshot_semantics_witness :
    (handleRunRound2 jpNone callFixture UiLang.zh (fun _ => "mod")
        stateAfterRound1).round2AddendumCommitted = some "note" ∧
    summaryPromptOf false
        (skipRound2State { stateAfterRound1 with round2AddendumCommitted := some "other" }) =
      buildSummaryPrompt "P" stateAfterRound1.round1Results none (some "note") := by
  have h := addendum_snapshot_semantics jpNone callFixture UiLang.zh (fun _ => "mod")
    stateAfterRound1 "post-start edit" (by decide) (by decide)
  refine ⟨?_, ?_⟩
  · rw [h.2.1]
    decide
  · rw [h.1 (some "other")]
    rfl
